import Mathlib

/-!
Verification of the waypoint-updater core
(`ros/src/waypoint_updater/waypoint_updater.py`).

Shallow embedding notes:
* Python floats are idealized as rationals (`ℚ`); none of the verified
  properties depend on rounding.
* The source compares Euclidean distances `math.sqrt(dx**2 + dy**2)` against
  the running minimum (initialized to `sys.maxsize`).  Since `Real.sqrt` is
  strictly monotone on nonnegative arguments, comparing the squared
  distances against the squared initial bound `(2^63 - 1)^2` selects exactly
  the same minimizing index; the embedding therefore tracks squared
  distances, keeping every definition executable.
* Python list indexing `xs[i]` resolves a negative `i` to `len xs + i` and
  raises `IndexError` outside `[-len xs, len xs)`; this is modelled by
  `pyResolve` / `pyGet` returning `Option`.
* Mutation of shared waypoint objects is modelled by treating the stored
  waypoint list as a heap addressed by position: the published window is a
  list of heap positions (`windowIds`), exactly as
  `list(islice(cycle(self.waypoints), min_loc, min_loc + LOOKAHEAD_WPS - 1))`
  produces a fresh list whose elements alias the stored objects.
-/

namespace WaypointUpdater

/-- `LOOKAHEAD_WPS = 200` — number of waypoints the node intends to publish. -/
def LOOKAHEAD_WPS : Nat := 200

/-- `MAX_SPEED_METERS_PER_SEC = 20*0.447`. -/
def MAX_SPEED_METERS_PER_SEC : ℚ := 20 * (447 / 1000)

/-- `SLOWDOWN_WPS = 100` — waypoints before the light where slowdown starts. -/
def SLOWDOWN_WPS : Nat := 100

/-- `sys.maxsize` on a 64-bit platform, the scan's initial minimum distance. -/
def MAXSIZE : ℚ := 2 ^ 63 - 1

/-- `slope = MAX_SPEED_METERS_PER_SEC / SLOWDOWN_WPS` (line 203). -/
def slope : ℚ := MAX_SPEED_METERS_PER_SEC / (SLOWDOWN_WPS : ℚ)

/-- A geometry position (`pose.pose.position`); coordinates idealized as `ℚ`. -/
structure Position where
  x : ℚ
  y : ℚ
  z : ℚ
deriving DecidableEq, Inhabited, Repr

/-- A waypoint: its position and its velocity `twist.twist.linear.x`. -/
structure Waypoint where
  pos : Position
  vel : ℚ
deriving DecidableEq, Inhabited, Repr

/-- Python list-index resolution: a nonnegative index is valid below `N`,
a negative index `i` denotes position `N + i` when that is nonnegative,
anything else raises `IndexError` (modelled as `none`). -/
def pyResolve (N : Nat) (i : Int) : Option Nat :=
  if 0 ≤ i then
    if i < (N : Int) then some i.toNat else none
  else
    if 0 ≤ i + (N : Int) then some (i + (N : Int)).toNat else none

/-- Python `ws[i]` for a list of waypoints. -/
def pyGet (ws : List Waypoint) (i : Int) : Option Waypoint :=
  (pyResolve ws.length i).bind (fun n => ws[n]?)

/-- Python `range(a, b)` over integers. -/
def intRange (a b : Int) : List Int :=
  (List.range (b - a).toNat).map (fun (j : Nat) => a + (j : Int))

/-- The index range scanned by the localization loop (lines 135-143):
the whole path when `last_wp_id` is `None`, otherwise
`range(last_wp_id - 20, last_wp_id + 20)`. -/
def scanIndices (ws : List Waypoint) (last : Option Int) : List Int :=
  match last with
  | none => intRange 0 ws.length
  | some l => intRange (l - 20) (l + 20)

/-- Squared planar distance from the car to a waypoint (line 148 squared). -/
def sqDist (p : Position) (carx cary : ℚ) : ℚ :=
  (carx - p.x) ^ 2 + (cary - p.y) ^ 2

/-- The nearest-waypoint scan loop (lines 143-154).  The accumulator carries
`(min_dist, min_loc)` (squared distance, `Option` location); `none` as the
overall result models the `IndexError` raised by `self.waypoints[i]` when
an index of the un-wrapped range is out of bounds. -/
def scanLoop (ws : List Waypoint) (carx cary : ℚ) :
    List Int → ℚ × Option Int → Option (ℚ × Option Int)
  | [], acc => some acc
  | i :: rest, acc =>
    match pyGet ws i with
    | none => none
    | some w =>
      let dist := sqDist w.pos carx cary
      scanLoop ws carx cary rest (if dist < acc.1 then (dist, some i) else acc)

/-- The full localization step: scan `scanIndices` starting from
`min_dist = sys.maxsize`, `min_loc = None`. -/
def locateRaw (ws : List Waypoint) (carx cary : ℚ) (last : Option Int) :
    Option (ℚ × Option Int) :=
  scanLoop ws carx cary (scanIndices ws last) (MAXSIZE ^ 2, none)

/-- `is_red_light_ahead` (lines 192-193): the stop index is not the sentinel
`-1` and is fewer than 100 waypoints past the localized index. -/
abbrev is_red_light_ahead (red_light_wp min_loc : Int) : Prop :=
  red_light_wp ≠ -1 ∧ red_light_wp - min_loc < 100

/-- The velocity assigned at window offset `i` by one iteration of the speed
loop (lines 205-224).  Note the source compares the window-relative offset
`i` against the absolute stop index `self.red_light_wp` in the resume
condition `i > self.red_light_wp`. -/
def loopVel (red_light_wp min_loc : Int) (i : Nat) : ℚ :=
  if ¬ is_red_light_ahead red_light_wp min_loc ∨ (i : Int) > red_light_wp then
    MAX_SPEED_METERS_PER_SEC
  else
    let wp_to_go : Int := red_light_wp - min_loc - (i : Int)
    let target_vel : ℚ :=
      if wp_to_go < 5 then 0
      else MAX_SPEED_METERS_PER_SEC - ((SLOWDOWN_WPS : ℚ) - (wp_to_go : ℚ)) * slope
    max 0 target_vel

/-- Heap positions of the published window:
`list(islice(cycle(ws), min_loc, min_loc + LOOKAHEAD_WPS - 1))` for a
nonempty `ws` and `min_loc ≥ 0` yields the waypoint objects at positions
`(min_loc + j) % len(ws)` for `j < LOOKAHEAD_WPS - 1` (line 164). -/
def windowIds (N min_loc : Nat) : List Nat :=
  (List.range (LOOKAHEAD_WPS - 1)).map (fun j => (min_loc + j) % N)

/-- One speed-loop iteration: `set_waypoint_velocity(next_wps, i, v)` writes
through the aliased object, i.e. mutates the heap at position `ids[i]`
(lines 112-113 applied at lines 214/224). -/
def velStep (red_light_wp min_loc : Int) (ids : List Nat) (i : Nat)
    (h : List Waypoint) : List Waypoint :=
  let id := ids.getD i 0
  match h[id]? with
  | some w => h.set id { w with vel := loopVel red_light_wp min_loc i }
  | none => h

/-- The speed loop (lines 205-224) over a list of iteration indices. -/
def velLoop (red_light_wp min_loc : Int) (ids : List Nat) :
    List Nat → List Waypoint → List Waypoint
  | [], h => h
  | i :: rest, h => velLoop red_light_wp min_loc ids rest (velStep red_light_wp min_loc ids i h)

/-- `for i in range(len(next_wps) - 1): ...` — the full speed loop run on the
heap `ws`. -/
def runLoop (ws : List Waypoint) (ids : List Nat) (red_light_wp min_loc : Int) :
    List Waypoint :=
  velLoop red_light_wp min_loc ids (List.range (ids.length - 1)) ws

/-- The waypoints of the published `Lane`: the window's heap positions read
back from the heap after the speed loop. -/
def profileWindow (ws : List Waypoint) (min_loc : Nat) (red_light_wp : Int) :
    List Waypoint :=
  let ids := windowIds ws.length min_loc
  let ws2 := runLoop ws ids red_light_wp (min_loc : Int)
  ids.map (fun id => ws2.getD id default)

/-- What a compute cycle does, seen from outside: decline silently, die on a
Python exception, abort at the inconsistent-stop check, or publish a lane. -/
inductive Outcome where
  | notReady
  | crash
  | abort
  | publish (lane : List Waypoint)
deriving DecidableEq, Repr

/-- The node's mutable state: `self.waypoints`, `self.current_pose`,
`self.red_light_wp`, `self.last_wp_id`.  (`upcoming_light_state` is received
but never used by the compute path and is omitted.) -/
structure UpdaterState where
  waypoints : Option (List Waypoint)
  current_pose : Option Position
  red_light_wp : Int
  last_wp_id : Option Int
deriving DecidableEq, Repr

/-- The publish tail of `send_next_waypoints` (lines 201-232): run the speed
loop on the heap, publish the window, keep the mutated heap as the stored
waypoints. -/
def publishCycle (ws : List Waypoint) (min_loc : Nat) (red_light_wp : Int)
    (s1 : UpdaterState) : Outcome × UpdaterState :=
  let ws2 := runLoop ws (windowIds ws.length min_loc) red_light_wp (min_loc : Int)
  (Outcome.publish (profileWindow ws min_loc red_light_wp),
   { s1 with waypoints := some ws2 })

/-- `send_next_waypoints` (lines 123-232).  Ordering mirrors the source:
the scan may raise `IndexError`; `self.waypoints[min_loc]` with
`min_loc = None` raises; `self.last_wp_id = min_loc` happens at line 158,
before the window is built; `islice` raises `ValueError` on a negative
start; the inconsistent-stop check aborts before the speed loop. -/
def send_next_waypoints (s : UpdaterState) : Outcome × UpdaterState :=
  match s.waypoints, s.current_pose with
  | none, _ => (Outcome.notReady, s)
  | some _, none => (Outcome.notReady, s)
  | some ws, some pose =>
    match locateRaw ws pose.x pose.y s.last_wp_id with
    | none => (Outcome.crash, s)
    | some (_, none) => (Outcome.crash, s)
    | some (_, some min_loc) =>
      match pyGet ws min_loc with
      | none => (Outcome.crash, s)
      | some _closest_wp =>
        let s1 := { s with last_wp_id := some min_loc }
        if min_loc < 0 then (Outcome.crash, s1)
        else
          if is_red_light_ahead s.red_light_wp min_loc ∧ s.red_light_wp ≤ min_loc then
            (Outcome.abort, s1)
          else
            publishCycle ws min_loc.toNat s.red_light_wp s1

/-- `waypoints_cb` (lines 84-90): store the lane only when no path is stored
yet, then recompute; otherwise the delivery does nothing at all.  `none` in
the first component means the delivery was ignored. -/
def waypoints_cb (s : UpdaterState) (lane : List Waypoint) :
    Option Outcome × UpdaterState :=
  if s.waypoints = none then
    let r := send_next_waypoints { s with waypoints := some lane }
    (some r.1, r.2)
  else
    (none, s)

/-- `pose_cb` (lines 78-81). -/
def pose_cb (s : UpdaterState) (p : Position) : Outcome × UpdaterState :=
  send_next_waypoints { s with current_pose := some p }

/-- `traffic_cb` (lines 96-99). -/
def traffic_cb (s : UpdaterState) (idx : Int) : Outcome × UpdaterState :=
  send_next_waypoints { s with red_light_wp := idx }

/-- The store positions read by one localization scan in windowed mode,
after Python index resolution. -/
def examinedCells (ws : List Waypoint) (last : Int) : List (Option Nat) :=
  (scanIndices ws (some last)).map (pyResolve ws.length)

/-! ### Helper lemmas about the embedded primitives -/

lemma mem_intRange {a b i : Int} (hab : a ≤ b) :
    i ∈ intRange a b ↔ a ≤ i ∧ i < b := by
  unfold intRange
  rw [List.mem_map]
  constructor
  · rintro ⟨j, hj, rfl⟩
    rw [List.mem_range] at hj
    omega
  · rintro ⟨h1, h2⟩
    exact ⟨(i - a).toNat, List.mem_range.mpr (by omega), by omega⟩

lemma pyResolve_of_valid {N : Nat} {i : Int} (h0 : 0 ≤ i) (hN : i < (N : Int)) :
    pyResolve N i = some i.toNat := by
  unfold pyResolve
  rw [if_pos h0, if_pos hN]

/-- Every Python-resolvable index (`-N ≤ i < N`, negative values wrapping
to the end) reads an actual waypoint. -/
lemma pyGet_isSome_of_inrange {ws : List Waypoint} {i : Int}
    (h0 : 0 ≤ i + (ws.length : Int)) (hN : i < (ws.length : Int)) :
    (pyGet ws i).isSome := by
  unfold pyGet
  by_cases hpos : 0 ≤ i
  · rw [pyResolve_of_valid hpos hN]
    have hlt : i.toNat < ws.length := by omega
    simp [List.getElem?_eq_getElem hlt]
  · unfold pyResolve
    rw [if_neg hpos, if_pos h0]
    have hlt : (i + (ws.length : Int)).toNat < ws.length := by omega
    simp [List.getElem?_eq_getElem hlt]

lemma scanLoop_total (ws : List Waypoint) (cx cy : ℚ) (idxs : List Int) :
    ∀ acc : ℚ × Option Int, (∀ i ∈ idxs, (pyGet ws i).isSome) →
      ∃ r, scanLoop ws cx cy idxs acc = some r := by
  induction idxs with
  | nil => exact fun acc _ => ⟨acc, rfl⟩
  | cons i rest ih =>
    intro acc h
    have hi := h i (List.mem_cons_self i rest)
    rcases hq : pyGet ws i with _ | w
    · rw [hq] at hi
      simp at hi
    · simp only [scanLoop, hq]
      exact ih _ (fun j hj => h j (List.mem_cons_of_mem i hj))

lemma scanLoop_loc (ws : List Waypoint) (cx cy : ℚ) (idxs : List Int) :
    ∀ acc r : ℚ × Option Int, scanLoop ws cx cy idxs acc = some r →
      r.2 = acc.2 ∨ ∃ i ∈ idxs, r.2 = some i ∧ (pyGet ws i).isSome := by
  induction idxs with
  | nil =>
    intro acc r h
    simp only [scanLoop, Option.some.injEq] at h
    left
    rw [← h]
  | cons i rest ih =>
    intro acc r h
    rcases hq : pyGet ws i with _ | w
    · simp only [scanLoop, hq] at h
      cases h
    · simp only [scanLoop, hq] at h
      rcases ih _ r h with h1 | ⟨j, hj, h2, h3⟩
      · by_cases hd : sqDist w.pos cx cy < acc.1
        · rw [if_pos hd] at h1
          right
          exact ⟨i, List.mem_cons_self i rest, h1, by simp [hq]⟩
        · rw [if_neg hd] at h1
          left
          exact h1
      · right
        exact ⟨j, List.mem_cons_of_mem i hj, h2, h3⟩

lemma loopVel_sentinel (min_loc : Int) (i : Nat) :
    loopVel (-1) min_loc i = MAX_SPEED_METERS_PER_SEC := by
  unfold loopVel
  rw [if_pos]
  left
  simp [is_red_light_ahead]

lemma velStep_length (red min_loc : Int) (ids : List Nat) (i : Nat)
    (h : List Waypoint) : (velStep red min_loc ids i h).length = h.length := by
  rcases hq : h[ids.getD i 0]? with _ | w
  · simp only [velStep, hq]
  · simp only [velStep, hq, List.length_set]

lemma velStep_getElem_ne (red min_loc : Int) (ids : List Nat) (i id : Nat)
    (h : List Waypoint) (hne : ids.getD i 0 ≠ id) :
    (velStep red min_loc ids i h)[id]? = h[id]? := by
  rcases hq : h[ids.getD i 0]? with _ | w
  · simp only [velStep, hq]
  · simp only [velStep, hq]
    exact List.getElem?_set_ne hne

lemma velStep_write_vel (red min_loc : Int) (ids : List Nat) (i id : Nat)
    (h : List Waypoint) (hid : ids.getD i 0 = id) (hlt : id < h.length) :
    ((velStep red min_loc ids i h)[id]?).map Waypoint.vel =
      some (loopVel red min_loc i) := by
  subst hid
  simp only [velStep, List.getElem?_eq_getElem hlt, List.getElem?_set_self hlt,
    Option.map_some']

lemma velLoop_length (red min_loc : Int) (ids : List Nat) (L : List Nat) :
    ∀ h : List Waypoint, (velLoop red min_loc ids L h).length = h.length := by
  induction L with
  | nil => intro h; rfl
  | cons i rest ih =>
    intro h
    simp only [velLoop]
    rw [ih, velStep_length]

lemma velLoop_untouched (red min_loc : Int) (ids : List Nat) (id : Nat)
    (L : List Nat) :
    ∀ h : List Waypoint, (∀ i ∈ L, ids.getD i 0 ≠ id) →
      (velLoop red min_loc ids L h)[id]? = h[id]? := by
  induction L with
  | nil => intro h _; rfl
  | cons i rest ih =>
    intro h hL
    simp only [velLoop]
    rw [ih _ (fun j hj => hL j (List.mem_cons_of_mem i hj))]
    exact velStep_getElem_ne red min_loc ids i id h (hL i (List.mem_cons_self i rest))

lemma velLoop_stay_vel (red min_loc : Int) (ids : List Nat) (id : Nat) (v : ℚ)
    (hall : ∀ i, loopVel red min_loc i = v) (L : List Nat) :
    ∀ h : List Waypoint, (h[id]?).map Waypoint.vel = some v →
      ((velLoop red min_loc ids L h)[id]?).map Waypoint.vel = some v := by
  induction L with
  | nil => intro h hv; exact hv
  | cons i rest ih =>
    intro h hv
    simp only [velLoop]
    apply ih
    by_cases hid : ids.getD i 0 = id
    · rcases Option.map_eq_some'.mp hv with ⟨w, hw, _⟩
      rcases List.getElem?_eq_some.mp hw with ⟨hlt, _⟩
      rw [velStep_write_vel red min_loc ids i id h hid hlt, hall]
    · rw [velStep_getElem_ne red min_loc ids i id h hid]
      exact hv

lemma velLoop_write_vel (red min_loc : Int) (ids : List Nat) (id : Nat) (v : ℚ)
    (hall : ∀ i, loopVel red min_loc i = v) (L : List Nat) :
    ∀ h : List Waypoint, (∃ i ∈ L, ids.getD i 0 = id) → id < h.length →
      ((velLoop red min_loc ids L h)[id]?).map Waypoint.vel = some v := by
  induction L with
  | nil =>
    rintro h ⟨i, hi, _⟩
    exact absurd hi (List.not_mem_nil i)
  | cons i rest ih =>
    rintro h ⟨j, hj, hid⟩ hlt
    rcases List.mem_cons.mp hj with rfl | hj2
    · simp only [velLoop]
      apply velLoop_stay_vel red min_loc ids id v hall
      rw [velStep_write_vel red min_loc ids j id h hid hlt, hall]
    · simp only [velLoop]
      apply ih _ ⟨j, hj2, hid⟩
      rw [velStep_length]
      exact hlt

lemma windowIds_length (N min_loc : Nat) :
    (windowIds N min_loc).length = LOOKAHEAD_WPS - 1 := by
  simp [windowIds]

lemma windowIds_getElem (N min_loc : Nat) {i : Nat} (hi : i < LOOKAHEAD_WPS - 1) :
    (windowIds N min_loc)[i]? = some ((min_loc + i) % N) := by
  simp [windowIds, List.getElem?_map, List.getElem?_range hi]

lemma windowIds_getD (N min_loc : Nat) {i : Nat} (hi : i < LOOKAHEAD_WPS - 1) :
    (windowIds N min_loc).getD i 0 = (min_loc + i) % N := by
  rw [List.getD_eq_getElem?_getD, windowIds_getElem N min_loc hi]
  rfl

lemma profileWindow_length (ws : List Waypoint) (min_loc : Nat) (red : Int) :
    (profileWindow ws min_loc red).length = LOOKAHEAD_WPS - 1 := by
  simp [profileWindow, windowIds_length]

lemma profileWindow_getD (ws : List Waypoint) (min_loc : Nat) (red : Int)
    {i : Nat} (hi : i < LOOKAHEAD_WPS - 1) :
    (profileWindow ws min_loc red).getD i default =
      (runLoop ws (windowIds ws.length min_loc) red (min_loc : Int)).getD
        ((min_loc + i) % ws.length) default := by
  simp only [profileWindow]
  rw [List.getD_eq_getElem?_getD, List.getElem?_map, windowIds_getElem _ _ hi,
    Option.map_some', Option.getD_some]

lemma runLoop_window_vel (ws : List Waypoint) (min_loc : Nat) (red : Int) (v : ℚ)
    (hall : ∀ i, loopVel red (min_loc : Int) i = v) {i : Nat}
    (hi : i < LOOKAHEAD_WPS - 2) (hN : 0 < ws.length) :
    ((runLoop ws (windowIds ws.length min_loc) red (min_loc : Int))[(min_loc + i) % ws.length]?).map
      Waypoint.vel = some v := by
  unfold runLoop
  rw [windowIds_length]
  apply velLoop_write_vel red (min_loc : Int) _ _ v hall
  · refine ⟨i, List.mem_range.mpr ?_, windowIds_getD _ _ ?_⟩
    · have h200 : LOOKAHEAD_WPS = 200 := rfl
      omega
    · have h200 : LOOKAHEAD_WPS = 200 := rfl
      omega
  · exact Nat.mod_lt _ hN

lemma runLoop_last_untouched (ws : List Waypoint) (min_loc : Nat) (red : Int)
    (hN : LOOKAHEAD_WPS - 1 ≤ ws.length) :
    (runLoop ws (windowIds ws.length min_loc) red (min_loc : Int))[(min_loc + (LOOKAHEAD_WPS - 2)) % ws.length]? =
      ws[(min_loc + (LOOKAHEAD_WPS - 2)) % ws.length]? := by
  unfold runLoop
  rw [windowIds_length]
  apply velLoop_untouched
  intro i hi
  rw [List.mem_range] at hi
  have h200 : LOOKAHEAD_WPS = 200 := rfl
  rw [windowIds_getD _ _ (by omega)]
  intro hEq
  have h2 : i ≡ LOOKAHEAD_WPS - 2 [MOD ws.length] :=
    Nat.ModEq.add_left_cancel' min_loc hEq
  rw [Nat.ModEq] at h2
  rw [Nat.mod_eq_of_lt (by omega), Nat.mod_eq_of_lt (by omega)] at h2
  omega

/-! ### Concrete fixtures -/

/-- A unit-speed waypoint at the origin. -/
def wp1 : Waypoint := ⟨⟨0, 0, 0⟩, 1⟩

/-- A two-waypoint path with nominal speed 1. -/
def pathC4 : List Waypoint := [⟨⟨0, 0, 0⟩, 1⟩, ⟨⟨1, 0, 0⟩, 1⟩]

/-- A path exactly as long as the published window (199 waypoints). -/
def pathC5 : List Waypoint := List.replicate 199 wp1

/-! ### Claims -/

/-- C1: the spec claims the window returned by the profile step contains
exactly `LOOKAHEAD_WPS = 200` waypoints for every non-empty path and valid
nearest index.  The source's slice
`islice(cycle(waypoints), min_loc, min_loc + LOOKAHEAD_WPS - 1)` yields only
`LOOKAHEAD_WPS - 1 = 199` elements, contradicting the source's own comment
"get the next LOOKAHEAD_WPS waypoints": the window is always one short. -/
theorem C1_window_length_199 (ws : List Waypoint) (min_loc : Nat) (red : Int)
    (hws : ws ≠ []) :
    (profileWindow ws min_loc red).length = LOOKAHEAD_WPS - 1 ∧
      LOOKAHEAD_WPS - 1 ≠ LOOKAHEAD_WPS :=
  ⟨profileWindow_length ws min_loc red, by decide⟩

/-- C1 witness: evaluation at a concrete non-empty path. -/
theorem C1_window_length_199_witness :
    (profileWindow pathC4 0 (-1)).length = LOOKAHEAD_WPS - 1 ∧
      LOOKAHEAD_WPS - 1 ≠ LOOKAHEAD_WPS :=
  C1_window_length_199 pathC4 0 (-1) (by decide)

set_option maxRecDepth 100000 in
unseal Rat.add Rat.mul Rat.sub Rat.inv in
/-- C2: the spec claims that with nearest index 25 and stop index 29 every
window offset `i ≥ 4` is assigned `V_MAX`.  The source's resume condition is
`i > self.red_light_wp`, comparing the window-relative offset against the
absolute stop index, so offsets 4 through 29 are assigned 0 instead
(contradicting the source's own docstring example, which resumes max speed
at waypoint 30, i.e. offset 5). -/
theorem C2_resume_compares_absolute_index :
    loopVel 29 25 4 = 0 ∧ loopVel 29 25 10 = 0 ∧ loopVel 29 25 29 = 0 ∧
      loopVel 29 25 30 = MAX_SPEED_METERS_PER_SEC ∧
      MAX_SPEED_METERS_PER_SEC ≠ 0 := by
  refine ⟨?_, ?_, ?_, ?_, ?_⟩ <;> decide

/-- C7 counterexample: with `lastIndex = 5` on a 100-waypoint path, the scan
examines the waypoint at store position 85 = 100 + (5 - 20): Python negative
indexing wraps the low end of the un-wrapped range `[-15, 25)` to the end of
the path, contradicting "no wrapping at the path boundary in either
direction". -/
theorem C7_counterexample :
    some 85 ∈ examinedCells (List.replicate 100 wp1) 5 ∧
      ¬((5 : Int) - 20 ≤ (85 : Int) ∧ (85 : Int) < 5 + 20) := by
  constructor
  · decide
  · decide

/-- C7 (amended): the examined cells are exactly the claimed positions
`lastIndex - 20 .. lastIndex + 19` with no wrapping only when
`20 ≤ lastIndex` and `lastIndex + 20 ≤ N`; outside that range the low end
wraps (Python negative indexing) and the high end raises `IndexError`. -/
theorem C7_amended_examined_range (ws : List Waypoint) (last : Int)
    (h1 : 20 ≤ last) (h2 : last + 20 ≤ (ws.length : Int)) :
    examinedCells ws last =
        (intRange (last - 20) (last + 20)).map (fun i => some i.toNat) ∧
      ∀ c ∈ examinedCells ws last, ∃ p : Nat, c = some p ∧
        last - 20 ≤ (p : Int) ∧ (p : Int) < last + 20 := by
  have hmain : examinedCells ws last =
      (intRange (last - 20) (last + 20)).map (fun i => some i.toNat) := by
    unfold examinedCells scanIndices
    apply List.map_congr_left
    intro i hi
    rw [mem_intRange (by omega)] at hi
    exact pyResolve_of_valid (by omega) (by omega)
  refine ⟨hmain, ?_⟩
  intro c hc
  rw [hmain, List.mem_map] at hc
  rcases hc with ⟨i, hi, rfl⟩
  rw [mem_intRange (by omega)] at hi
  exact ⟨i.toNat, rfl, by omega, by omega⟩

/-- C7 witness: the amended statement at `lastIndex = 20` on a 40-waypoint
path. -/
theorem C7_amended_examined_range_witness :
    examinedCells (List.replicate 40 wp1) 20 =
        (intRange ((20 : Int) - 20) ((20 : Int) + 20)).map (fun i => some i.toNat) ∧
      ∀ c ∈ examinedCells (List.replicate 40 wp1) 20, ∃ p : Nat, c = some p ∧
        (20 : Int) - 20 ≤ (p : Int) ∧ (p : Int) < (20 : Int) + 20 :=
  C7_amended_examined_range (List.replicate 40 wp1) 20 (by decide) (by decide)

/-- C8: the Path Store is first-writer-wins: the first delivery stores the
lane (`waypoints_cb` guards on `self.waypoints is None`), and any delivery
arriving when a path is already stored executes nothing, so the stored path
still equals the first delivery. -/
theorem C8_first_writer_wins (s : UpdaterState) (lane lane2 : List Waypoint)
    (h1 : s.waypoints = none) (h2 : s.current_pose = none) :
    (waypoints_cb s lane).2.waypoints = some lane ∧
      (∀ (t : UpdaterState) (lane3 : List Waypoint), t.waypoints ≠ none →
        waypoints_cb t lane3 = (none, t)) ∧
      (waypoints_cb (waypoints_cb s lane).2 lane2).2.waypoints = some lane := by
  have hstore : (waypoints_cb s lane).2.waypoints = some lane := by
    unfold waypoints_cb
    rw [if_pos h1]
    unfold send_next_waypoints
    simp [h2]
  have hnoop : ∀ (t : UpdaterState) (lane3 : List Waypoint), t.waypoints ≠ none →
      waypoints_cb t lane3 = (none, t) := by
    intro t lane3 ht
    unfold waypoints_cb
    rw [if_neg ht]
  refine ⟨hstore, hnoop, ?_⟩
  rw [hnoop _ lane2 (by rw [hstore]; exact Option.some_ne_none lane)]
  exact hstore

/-- C8 witness: a fresh state, then two deliveries. -/
theorem C8_first_writer_wins_witness :
    (waypoints_cb (waypoints_cb ⟨none, none, -1, none⟩ pathC4).2 pathC5).2.waypoints =
      some pathC4 :=
  (C8_first_writer_wins ⟨none, none, -1, none⟩ pathC4 pathC5 rfl rfl).2.2

set_option maxRecDepth 100000 in
unseal Rat.add Rat.mul Rat.sub Rat.inv in
/-- C3 counterexample: a 30-waypoint path with `last_wp_id = 25`: the
windowed scan range `range(5, 45)` runs past the path end and
`self.waypoints[30]` raises `IndexError` — the cycle dies instead of
returning a valid index. -/
theorem C3_counterexample_scan_past_end_crashes :
    (send_next_waypoints ⟨some (List.replicate 30 wp1), some ⟨0, 0, 0⟩, -1, some 25⟩).1 =
      Outcome.crash := by decide

/-- C3 (amended): the localization scan returns an index of the scanned
range that resolves (Python indexing, negative values wrapping) to a
waypoint of the path, provided every scanned position is resolvable
(`-N ≤ i < N` — automatic for the full scan on a non-empty path; for the
windowed scan: `lastIndex + 20 ≤ N` and `lastIndex - 20 ≥ -N`, low-end
wrapping included) and the first scanned waypoint is within the
`sys.maxsize` initial distance bound of the pose.  Outside these
conditions the cycle raises instead of returning: `IndexError` when the
windowed range extends past the path end (see the counterexample),
`TypeError` at `waypoints[None]` when no scanned waypoint beats the
initial bound. -/
theorem C3_amended_locate_returns_index (ws : List Waypoint) (cx cy : ℚ)
    (lastOpt : Option Int) (i0 : Int) (rest : List Int)
    (hscan : scanIndices ws lastOpt = i0 :: rest)
    (hres : ∀ i ∈ scanIndices ws lastOpt,
      0 ≤ i + (ws.length : Int) ∧ i < (ws.length : Int))
    (hclose : sqDist ((pyGet ws i0).getD default).pos cx cy < MAXSIZE ^ 2) :
    ∃ d j, locateRaw ws cx cy lastOpt = some (d, some j) ∧
      j ∈ scanIndices ws lastOpt ∧ (pyGet ws j).isSome := by
  obtain ⟨hres0, hresN⟩ := hres i0 (by rw [hscan]; exact List.mem_cons_self i0 rest)
  have hw0 : (pyGet ws i0).isSome := pyGet_isSome_of_inrange hres0 hresN
  obtain ⟨w, hw⟩ := Option.isSome_iff_exists.mp hw0
  have hclose2 : sqDist w.pos cx cy < MAXSIZE ^ 2 := by
    rw [hw] at hclose
    simpa using hclose
  have hrest : ∀ i ∈ rest, (pyGet ws i).isSome := by
    intro i hi
    obtain ⟨h1, h2⟩ := hres i (by rw [hscan]; exact List.mem_cons_of_mem i0 hi)
    exact pyGet_isSome_of_inrange h1 h2
  unfold locateRaw
  rw [hscan]
  simp only [scanLoop, hw]
  rw [if_pos hclose2]
  obtain ⟨r, hr⟩ := scanLoop_total ws cx cy rest (sqDist w.pos cx cy, some i0) hrest
  rcases scanLoop_loc ws cx cy rest (sqDist w.pos cx cy, some i0) r hr with
    hacc | ⟨i, hi, hloc, hs⟩
  · obtain ⟨rd, rl⟩ := r
    have h2 : rl = some i0 := hacc
    refine ⟨rd, i0, ?_, ?_, hw0⟩
    · rw [hr, h2]
    · exact List.mem_cons_self i0 rest
  · obtain ⟨rd, rl⟩ := r
    have h2 : rl = some i := hloc
    refine ⟨rd, i, ?_, ?_, hs⟩
    · rw [hr, h2]
    · exact List.mem_cons_of_mem i0 hi

set_option maxRecDepth 100000 in
unseal Rat.add Rat.mul Rat.sub Rat.inv in
/-- C3 witness: the amended statement on a 100-waypoint path with
`lastIndex = 5` — the windowed range `[-15, 25)` resolves (low end wraps to
position 85), the scan completes and returns an index of the range. -/
theorem C3_amended_locate_returns_index_witness :
    ∃ d j, locateRaw (List.replicate 100 wp1) 0 0 (some 5) = some (d, some j) ∧
      j ∈ scanIndices (List.replicate 100 wp1) (some 5) ∧
      (pyGet (List.replicate 100 wp1) j).isSome :=
  C3_amended_locate_returns_index (List.replicate 100 wp1) 0 0 (some 5) (-15)
    (intRange (-14) 25) (by decide) (by decide) (by decide)

/-- C6: whenever the actionable-stop test holds (`red_light_wp ≠ -1` and
`red_light_wp - min_loc < 100`) and the stop index is at or behind the
localized index, the cycle returns at the inconsistent-state check (lines
197-199): the outcome is an abort and nothing is published. -/
theorem C6_inconsistent_stop_aborts (s : UpdaterState) (ws : List Waypoint)
    (pose : Position) (d : ℚ) (m : Int)
    (h1 : s.waypoints = some ws) (h2 : s.current_pose = some pose)
    (h3 : locateRaw ws pose.x pose.y s.last_wp_id = some (d, some m))
    (h4 : 0 ≤ m) (h5 : s.red_light_wp ≠ -1)
    (h6 : s.red_light_wp - m < 100) (h7 : s.red_light_wp ≤ m) :
    (send_next_waypoints s).1 = Outcome.abort := by
  have hg : (pyGet ws m).isSome := by
    rcases scanLoop_loc ws pose.x pose.y _ _ _ h3 with hacc | ⟨i, _, hloc, hs⟩
    · cases hacc
    · have h : some m = some i := hloc
      rw [Option.some.injEq] at h
      rw [h]
      exact hs
  obtain ⟨w, hw⟩ := Option.isSome_iff_exists.mp hg
  simp only [send_next_waypoints, h1, h2, h3, hw]
  rw [if_neg (by omega)]
  rw [if_pos ⟨⟨h5, h6⟩, h7⟩]

set_option maxRecDepth 100000 in
unseal Rat.add Rat.mul Rat.sub Rat.inv in
/-- C6 witness: 5-waypoint path, pose on waypoint 0, stop index 0. -/
theorem C6_inconsistent_stop_aborts_witness :
    (send_next_waypoints ⟨some (List.replicate 5 wp1), some ⟨0, 0, 0⟩, 0, none⟩).1 =
      Outcome.abort :=
  C6_inconsistent_stop_aborts ⟨some (List.replicate 5 wp1), some ⟨0, 0, 0⟩, 0, none⟩
    (List.replicate 5 wp1) ⟨0, 0, 0⟩ 0 0 rfl rfl (by decide) (by decide) (by decide)
    (by decide) (by decide)

/-- C10: the abort is not state-atomic: `self.last_wp_id = min_loc` (line
158) executes before the inconsistent-stop check (lines 197-199), so an
aborted cycle still reseeds the next search with the newly localized
index. -/
theorem C10_abort_still_updates_last_index (s : UpdaterState) (ws : List Waypoint)
    (pose : Position) (d : ℚ) (m : Int)
    (h1 : s.waypoints = some ws) (h2 : s.current_pose = some pose)
    (h3 : locateRaw ws pose.x pose.y s.last_wp_id = some (d, some m))
    (h4 : 0 ≤ m) (h5 : s.red_light_wp ≠ -1)
    (h6 : s.red_light_wp - m < 100) (h7 : s.red_light_wp ≤ m) :
    (send_next_waypoints s).1 = Outcome.abort ∧
      (send_next_waypoints s).2.last_wp_id = some m := by
  have hg : (pyGet ws m).isSome := by
    rcases scanLoop_loc ws pose.x pose.y _ _ _ h3 with hacc | ⟨i, _, hloc, hs⟩
    · cases hacc
    · have h : some m = some i := hloc
      rw [Option.some.injEq] at h
      rw [h]
      exact hs
  obtain ⟨w, hw⟩ := Option.isSome_iff_exists.mp hg
  simp only [send_next_waypoints, h1, h2, h3, hw]
  rw [if_neg (by omega)]
  rw [if_pos ⟨⟨h5, h6⟩, h7⟩]
  exact ⟨rfl, rfl⟩

set_option maxRecDepth 100000 in
unseal Rat.add Rat.mul Rat.sub Rat.inv in
/-- C10 witness: 6-waypoint path, pose on waypoint 0, stop index -2 (behind
the vehicle but not the sentinel): the cycle aborts yet `last_wp_id` is now
0. -/
theorem C10_abort_still_updates_last_index_witness :
    (send_next_waypoints ⟨some (List.replicate 6 wp1), some ⟨0, 0, 0⟩, -2, none⟩).1 =
        Outcome.abort ∧
      (send_next_waypoints ⟨some (List.replicate 6 wp1), some ⟨0, 0, 0⟩, -2, none⟩).2.last_wp_id =
        some 0 :=
  C10_abort_still_updates_last_index ⟨some (List.replicate 6 wp1), some ⟨0, 0, 0⟩, -2, none⟩
    (List.replicate 6 wp1) ⟨0, 0, 0⟩ 0 0 rfl rfl (by decide) (by decide) (by decide)
    (by decide) (by decide)

set_option maxRecDepth 100000 in
unseal Rat.add Rat.mul Rat.sub Rat.inv in
/-- C4 counterexample: the published window aliases the Path Store.  On a
two-waypoint path with nominal speed 1 and no stop signal, a single
pose-triggered cycle leaves the stored waypoints with speed `V_MAX`: the
store is mutated, so the window was a view, not an independent value. -/
theorem C4_counterexample_publish_mutates_store :
    (send_next_waypoints ⟨some pathC4, some ⟨0, 0, 0⟩, -1, none⟩).2.waypoints =
        some [⟨⟨0, 0, 0⟩, MAX_SPEED_METERS_PER_SEC⟩, ⟨⟨1, 0, 0⟩, MAX_SPEED_METERS_PER_SEC⟩] ∧
      (send_next_waypoints ⟨some pathC4, some ⟨0, 0, 0⟩, -1, none⟩).2.waypoints ≠
        some pathC4 := by
  constructor
  · decide
  · decide

/-- C4 (amended): the speed loop writes through the shared waypoint
objects: after a cycle with no actionable stop, the stored waypoint at the
localized index carries `V_MAX`, whatever its nominal speed was. -/
theorem C4_amended_window_aliases_store (ws : List Waypoint) (min_loc : Nat)
    (hm : min_loc < ws.length) :
    ((runLoop ws (windowIds ws.length min_loc) (-1) (min_loc : Int)).getD min_loc
        default).vel = MAX_SPEED_METERS_PER_SEC := by
  have h := runLoop_window_vel ws min_loc (-1) MAX_SPEED_METERS_PER_SEC
    (loopVel_sentinel (min_loc : Int)) (show 0 < LOOKAHEAD_WPS - 2 by decide)
    (by omega)
  rw [Nat.add_zero, Nat.mod_eq_of_lt hm] at h
  rcases Option.map_eq_some'.mp h with ⟨w, hw, hv⟩
  rw [List.getD_eq_getElem?_getD, hw]
  exact hv

/-- C4 witness: the amended statement on the concrete two-waypoint path. -/
theorem C4_amended_window_aliases_store_witness :
    ((runLoop pathC4 (windowIds pathC4.length 0) (-1) ((0 : Nat) : Int)).getD 0
        default).vel = MAX_SPEED_METERS_PER_SEC :=
  C4_amended_window_aliases_store pathC4 0 (by decide)

/-- The window position `LOOKAHEAD_WPS - 2` (the last element) is never
written by the speed loop when the path is at least as long as the window,
so it reads back the stored waypoint's nominal speed.  Shared by the C5
counterexample and the C5 amended theorem. -/
lemma profileWindow_last_nominal (ws : List Waypoint) (min_loc : Nat) (red : Int)
    (hN : LOOKAHEAD_WPS - 1 ≤ ws.length) :
    ((profileWindow ws min_loc red).getD (LOOKAHEAD_WPS - 2) default).vel =
      (ws.getD ((min_loc + (LOOKAHEAD_WPS - 2)) % ws.length) default).vel := by
  rw [profileWindow_getD ws min_loc red (show LOOKAHEAD_WPS - 2 < LOOKAHEAD_WPS - 1 by decide)]
  rw [List.getD_eq_getElem?_getD, runLoop_last_untouched ws min_loc red hN,
    ← List.getD_eq_getElem?_getD]

set_option maxRecDepth 100000 in
unseal Rat.add Rat.mul Rat.sub Rat.inv in
/-- C5 counterexample: with the sentinel stop index on a 199-waypoint path
of nominal speed 1, the returned window's last element keeps speed 1, not
`V_MAX` (and the window has 199 elements, not `LOOKAHEAD` = 200). -/
theorem C5_counterexample_last_speed_not_vmax :
    ((profileWindow pathC5 0 (-1)).getD 198 default).vel = 1 ∧
      (1 : ℚ) ≠ MAX_SPEED_METERS_PER_SEC ∧
      (profileWindow pathC5 0 (-1)).length ≠ 200 := by
  refine ⟨?_, ?_, ?_⟩
  · show ((profileWindow pathC5 0 (-1)).getD (LOOKAHEAD_WPS - 2) default).vel = 1
    rw [profileWindow_last_nominal pathC5 0 (-1) (by decide)]
    decide
  · decide
  · rw [profileWindow_length]
    decide

/-- C5 (amended): with the sentinel stop index, every one of the window's
199 elements except the last is assigned `V_MAX`; the last reads back the
stored nominal speed of the waypoint at `(min_loc + 198) % N` (path at
least window-length long, so no self-aliasing). -/
theorem C5_amended_sentinel_speeds (ws : List Waypoint) (min_loc : Nat)
    (hN : LOOKAHEAD_WPS - 1 ≤ ws.length) :
    (∀ i, i < LOOKAHEAD_WPS - 2 →
        ((profileWindow ws min_loc (-1)).getD i default).vel =
          MAX_SPEED_METERS_PER_SEC) ∧
      ((profileWindow ws min_loc (-1)).getD (LOOKAHEAD_WPS - 2) default).vel =
        (ws.getD ((min_loc + (LOOKAHEAD_WPS - 2)) % ws.length) default).vel := by
  constructor
  · intro i hi
    have h200 : LOOKAHEAD_WPS = 200 := rfl
    rw [profileWindow_getD ws min_loc (-1) (by omega)]
    have h := runLoop_window_vel ws min_loc (-1) MAX_SPEED_METERS_PER_SEC
      (loopVel_sentinel (min_loc : Int)) hi (by omega)
    rcases Option.map_eq_some'.mp h with ⟨w, hw, hv⟩
    rw [List.getD_eq_getElem?_getD, hw]
    exact hv
  · exact profileWindow_last_nominal ws min_loc (-1) hN

set_option maxRecDepth 100000 in
unseal Rat.add Rat.mul Rat.sub Rat.inv in
/-- C5 witness: the amended statement on the concrete 199-waypoint path. -/
theorem C5_amended_sentinel_speeds_witness :
    ((profileWindow pathC5 0 (-1)).getD 0 default).vel = MAX_SPEED_METERS_PER_SEC :=
  (C5_amended_sentinel_speeds pathC5 0 (by decide)).1 0 (by decide)

/-- With an actionable stop at or ahead of the window offset, the loop body
takes the slowdown branch; its value zeta-reduces to this closed form. -/
lemma loopVel_of_active {red min_loc : Int} {i : Nat}
    (h1 : is_red_light_ahead red min_loc) (h2 : (i : Int) ≤ red) :
    loopVel red min_loc i =
      max 0 (if red - min_loc - (i : Int) < 5 then 0
        else MAX_SPEED_METERS_PER_SEC -
          ((SLOWDOWN_WPS : ℚ) - ((red - min_loc - (i : Int) : Int) : ℚ)) * slope) := by
  unfold loopVel
  rw [if_neg]
  push_neg
  exact ⟨h1, h2⟩

/-- C9: with an actionable stop at relative offset `k` (`5 ≤ k < 100`) from
a valid nearest index, the assigned speed at offset `k` is 0; over offsets
`0..k` the assigned speeds are nonincreasing in the offset, bounded by
`V_MAX`, and equal to the clamped linear ramp
`V_MAX - (SLOWDOWN_WPS - remaining) * (V_MAX / SLOWDOWN_WPS)` with hard 0
when `remaining = k - i < 5`. -/
theorem C9_braking_ramp (nearest : Int) (k : Nat) (hn : 0 ≤ nearest)
    (h5 : 5 ≤ k) (hk : k < SLOWDOWN_WPS) :
    loopVel (nearest + (k : Int)) nearest k = 0 ∧
      (∀ i j : Nat, i ≤ j → j ≤ k →
        loopVel (nearest + (k : Int)) nearest j ≤
          loopVel (nearest + (k : Int)) nearest i) ∧
      (∀ i : Nat, i ≤ k →
        loopVel (nearest + (k : Int)) nearest i ≤ MAX_SPEED_METERS_PER_SEC) ∧
      (∀ i : Nat, i ≤ k →
        loopVel (nearest + (k : Int)) nearest i =
          if ((k : Int) - (i : Int)) < 5 then 0
          else max 0 (MAX_SPEED_METERS_PER_SEC -
            ((SLOWDOWN_WPS : ℚ) - (((k : Int) - (i : Int) : Int) : ℚ)) * slope)) := by
  have hs100 : SLOWDOWN_WPS = 100 := rfl
  have hred : is_red_light_ahead (nearest + (k : Int)) nearest := by
    constructor
    · omega
    · omega
  have hform : ∀ i : Nat, i ≤ k →
      loopVel (nearest + (k : Int)) nearest i =
        max 0 (if ((k : Int) - (i : Int)) < 5 then 0
          else MAX_SPEED_METERS_PER_SEC -
            ((SLOWDOWN_WPS : ℚ) - (((k : Int) - (i : Int) : Int) : ℚ)) * slope) := by
    intro i hi
    rw [loopVel_of_active hred (by omega)]
    have e1 : nearest + (k : Int) - nearest - (i : Int) = (k : Int) - (i : Int) := by
      ring
    rw [e1]
  refine ⟨?_, ?_, ?_, ?_⟩
  · rw [hform k le_rfl, if_pos (by omega), max_self]
  · intro i j hij hjk
    have hik : i ≤ k := le_trans hij hjk
    rw [hform j hjk, hform i hik]
    by_cases hcj : ((k : Int) - (j : Int)) < 5
    · rw [if_pos hcj, max_self]
      exact le_max_left 0 _
    · have hci : ¬ ((k : Int) - (i : Int)) < 5 := by omega
      rw [if_neg hcj, if_neg hci]
      apply max_le_max le_rfl
      have hq : ((i : ℚ)) ≤ (j : ℚ) := by exact_mod_cast hij
      push_cast
      simp only [MAX_SPEED_METERS_PER_SEC, slope, SLOWDOWN_WPS]
      push_cast
      linarith
  · intro i hi
    rw [hform i hi]
    by_cases hc : ((k : Int) - (i : Int)) < 5
    · rw [if_pos hc, max_self]
      simp only [MAX_SPEED_METERS_PER_SEC]
      norm_num
    · rw [if_neg hc]
      apply max_le
      · simp only [MAX_SPEED_METERS_PER_SEC]
        norm_num
      · have hk99 : (k : ℚ) ≤ 99 := by exact_mod_cast (by omega : k ≤ 99)
        have hi0 : (0 : ℚ) ≤ (i : ℚ) := Nat.cast_nonneg i
        push_cast
        simp only [MAX_SPEED_METERS_PER_SEC, slope, SLOWDOWN_WPS]
        push_cast
        linarith
  · intro i hi
    rw [hform i hi]
    by_cases hc : ((k : Int) - (i : Int)) < 5
    · rw [if_pos hc, if_pos hc, max_self]
    · rw [if_neg hc, if_neg hc]

/-- C9 witness: nearest index 25, stop at 35 (relative offset 10): the
assigned speed at offset 10 is 0. -/
theorem C9_braking_ramp_witness :
    loopVel (25 + ((10 : Nat) : Int)) 25 10 = 0 :=
  (C9_braking_ramp 25 10 (by omega) (by omega) (by decide)).1

end WaypointUpdater
